import Mathlib

/-!
Verification of the video thumbnail cache and generation pipeline of
tuxx/localpics (file thumbnails.go), as a shallow embedding in Lean.

Go machine integers are modelled by `Int`/`Nat` (with explicit `% 2^32`
where the MD5 algorithm wraps), byte strings by `List Nat`, the `float64`
seek-time arithmetic by exact rationals, and filesystem / external-tool
effects by explicit environment records describing the outcome of each
system call the code makes.
-/

set_option autoImplicit false

namespace LocalPics

/-! ### MD5 (crypto/md5), over `Nat` reduced mod `2^32` -/

/-- Word size of the MD5 state registers. -/
def w32 : Nat := 4294967296

/-- Addition modulo `2^32`. -/
def add32 (a b : Nat) : Nat := (a + b) % w32

/-- Bitwise complement on 32-bit words. -/
def not32 (x : Nat) : Nat := Nat.xor x (w32 - 1)

/-- Left rotation of a 32-bit word by `n` bits (valid for `x < 2^32`, `n ≤ 32`). -/
def rotl32 (x n : Nat) : Nat := (x % 2 ^ (32 - n)) * 2 ^ n + x / 2 ^ (32 - n)

/-- The 64 MD5 sine-derived round constants. -/
def md5K : List Nat :=
  [3614090360, 3905402710, 606105819, 3250441966, 4118548399, 1200080426,
   2821735955, 4249261313, 1770035416, 2336552879, 4294925233, 2304563134,
   1804603682, 4254626195, 2792965006, 1236535329, 4129170786, 3225465664,
   643717713, 3921069994, 3593408605, 38016083, 3634488961, 3889429448,
   568446438, 3275163606, 4107603335, 1163531501, 2850285829, 4243563512,
   1735328473, 2368359562, 4294588738, 2272392833, 1839030562, 4259657740,
   2763975236, 1272893353, 4139469664, 3200236656, 681279174, 3936430074,
   3572445317, 76029189, 3654602809, 3873151461, 530742520, 3299628645,
   4096336452, 1126891415, 2878612391, 4237533241, 1700485571, 2399980690,
   4293915773, 2240044497, 1873313359, 4264355552, 2734768916, 1309151649,
   4149444226, 3174756917, 718787259, 3951481745]

/-- The 64 MD5 per-round left-rotation amounts. -/
def md5S : List Nat :=
  [7, 12, 17, 22, 7, 12, 17, 22, 7, 12, 17, 22, 7, 12, 17, 22,
   5, 9, 14, 20, 5, 9, 14, 20, 5, 9, 14, 20, 5, 9, 14, 20,
   4, 11, 16, 23, 4, 11, 16, 23, 4, 11, 16, 23, 4, 11, 16, 23,
   6, 10, 15, 21, 6, 10, 15, 21, 6, 10, 15, 21, 6, 10, 15, 21]

/-- The four 32-bit MD5 state registers. -/
structure MD5State where
  a : Nat
  b : Nat
  c : Nat
  d : Nat

/-- The `g`-th little-endian 32-bit word of a 64-byte chunk. -/
def md5Word (chunk : List Nat) (g : Nat) : Nat :=
  chunk.getD (4 * g) 0 + 256 * chunk.getD (4 * g + 1) 0 +
    65536 * chunk.getD (4 * g + 2) 0 + 16777216 * chunk.getD (4 * g + 3) 0

/-- One MD5 round `i` (0-based) with message-word accessor `m`. -/
def md5Round (m : Nat → Nat) (i : Nat) (st : MD5State) : MD5State :=
  let fg : Nat × Nat :=
    if i < 16 then ((st.b &&& st.c) ||| (not32 st.b &&& st.d), i)
    else if i < 32 then ((st.d &&& st.b) ||| (not32 st.d &&& st.c), (5 * i + 1) % 16)
    else if i < 48 then (Nat.xor (Nat.xor st.b st.c) st.d, (3 * i + 5) % 16)
    else (Nat.xor st.c (st.b ||| not32 st.d), (7 * i) % 16)
  let fv := (fg.1 + st.a + md5K.getD i 0 + m fg.2) % w32
  { a := st.d, b := add32 st.b (rotl32 fv (md5S.getD i 0)), c := st.b, d := st.c }

/-- Runs rounds `64 - n` through `63`; `md5RoundLoop m 64 st` runs all 64 rounds. -/
def md5RoundLoop (m : Nat → Nat) : Nat → MD5State → MD5State
  | 0, st => st
  | n + 1, st => md5RoundLoop m n (md5Round m (64 - (n + 1)) st)

/-- Processes one 64-byte chunk, adding the round result into the running state. -/
def md5Chunk (chunk : List Nat) (st : MD5State) : MD5State :=
  let r := md5RoundLoop (md5Word chunk) 64 st
  { a := add32 st.a r.a, b := add32 st.b r.b, c := add32 st.c r.c, d := add32 st.d r.d }

/-- Processes `n` consecutive 64-byte chunks of `msg`. -/
def md5Chunks : Nat → List Nat → MD5State → MD5State
  | 0, _, st => st
  | n + 1, msg, st => md5Chunks n (msg.drop 64) (md5Chunk (msg.take 64) st)

/-- The `k` little-endian bytes of `x`. -/
def leBytes : Nat → Nat → List Nat
  | 0, _ => []
  | k + 1, x => x % 256 :: leBytes k (x / 256)

/-- MD5 padding: `0x80`, zeros to 56 mod 64, then the 64-bit little-endian bit length. -/
def md5Pad (msg : List Nat) : List Nat :=
  let len := msg.length
  let zeros := (56 + 64 - (len + 1) % 64) % 64
  msg ++ [128] ++ List.replicate zeros 0 ++ leBytes 8 ((len * 8) % 2 ^ 64)

/-- The 16-byte MD5 digest of a byte string. -/
def md5Bytes (msg : List Nat) : List Nat :=
  let padded := md5Pad msg
  let st := md5Chunks (padded.length / 64) padded
    ⟨1732584193, 4023233417, 2562383102, 271733878⟩
  leBytes 4 st.a ++ leBytes 4 st.b ++ leBytes 4 st.c ++ leBytes 4 st.d

/-- Lowercase hex digit character for a value below 16, computed from the
code points of the digit zero (48) and of the letter a (97, offset 87). -/
def hexDigit (n : Nat) : Char :=
  if n < 10 then Char.ofNat (48 + n) else Char.ofNat (87 + n)

/-- Two lowercase hex characters for one byte (Go `%x` formatting of a byte). -/
def hexByte (b : Nat) : List Char := [hexDigit (b / 16 % 16), hexDigit (b % 16)]

/-- Lowercase hex string of a byte string (Go `fmt.Sprintf("%x", bytes)`). -/
def hexString (bs : List Nat) : String := String.mk (bs.map hexByte).flatten

/-- UTF-8 encoding of one character. -/
def utf8Char (c : Char) : List Nat :=
  let n := c.toNat
  if n < 128 then [n]
  else if n < 2048 then [192 + n / 64, 128 + n % 64]
  else if n < 65536 then [224 + n / 4096, 128 + n / 64 % 64, 128 + n % 64]
  else [240 + n / 262144, 128 + n / 4096 % 64, 128 + n / 64 % 64, 128 + n % 64]

/-- UTF-8 byte encoding of a string (the byte view Go strings expose). -/
def utf8Encode (s : String) : List Nat := (s.toList.map utf8Char).flatten

/-- Lowercase hex MD5 digest of the UTF-8 bytes of a string. -/
def md5Hex (s : String) : String := hexString (md5Bytes (utf8Encode s))

/-! ### Video signatures (thumbnails.go, GetVideoSignature / GetSignatureHash) -/

/-- VideoSignature holds identifying information for videos
(struct VideoSignature in thumbnails.go). -/
structure VideoSignature where
  Size : Int
  ModTime : Int
  HeaderHash : String
deriving DecidableEq

/-- GetSignatureHash returns a string hash of the video signature:
the MD5 hex digest of the string `fmt.Sprintf("%d-%s", sig.Size, sig.HeaderHash)`. -/
def GetSignatureHash (sig : VideoSignature) : String :=
  md5Hex (toString sig.Size ++ "-" ++ sig.HeaderHash)

/-- Outcomes of the system calls GetVideoSignature makes on one path:
the stat result (`none` models a stat error, otherwise size and Unix mtime),
whether the subsequent open succeeds, and the bytes actually readable from
the start of the file (io.ReadFull succeeds exactly when at least the
requested number of bytes is available). -/
structure FileEnv where
  statRes : Option (Int × Int)
  openOk : Bool
  bytes : List Nat

/-- Size of the header that is hashed: 1 MiB. -/
def headerSizeCap : Int := 1048576

/-- MD5 hex digest of a raw byte string. -/
def md5HexBytes (bs : List Nat) : String := hexString (md5Bytes bs)

/-- GetVideoSignature generates a signature for duplicate detection
(thumbnails.go lines 500 to 533): it fails only when the stat fails;
when the size is positive it tries to open the file and read the first
`min(1 MiB, size)` bytes, recording their MD5 hex digest, and leaves the
digest empty on any open or read failure. -/
def GetVideoSignature (env : FileEnv) : Option VideoSignature :=
  match env.statRes with
  | none => none
  | some (size, mtime) =>
    if 0 < size then
      if env.openOk then
        let headerSize : Int := if size < headerSizeCap then size else headerSizeCap
        if headerSize ≤ (env.bytes.length : Int) then
          some ⟨size, mtime, md5HexBytes (env.bytes.take headerSize.toNat)⟩
        else some ⟨size, mtime, ""⟩
      else some ⟨size, mtime, ""⟩
    else some ⟨size, mtime, ""⟩

/-! ### The in-memory thumbnail cache and its dirty flag -/

/-- Go map update (insert or overwrite) on an association list. -/
def mapInsert (k v : String) : List (String × String) → List (String × String)
  | [] => [(k, v)]
  | (k', v') :: rest => if k' = k then (k, v) :: rest else (k', v') :: mapInsert k v rest

/-- Go map lookup on an association list. -/
def mapLookup (k : String) : List (String × String) → Option String
  | [] => none
  | (k', v') :: rest => if k' = k then some v' else mapLookup k rest

/-- The mutable state shared by the thumbnail subsystem: the global
`ThumbnailCache` map and the `thumbnailChanged` dirty flag. -/
structure CacheState where
  cache : List (String × String)
  dirty : Bool
deriving DecidableEq

/-- A cache mutation as performed by GetOrCreateThumbnail when it stores a
mapping: insert under the write lock and set the dirty flag. -/
def cachePut (h p : String) (st : CacheState) : CacheState :=
  { cache := mapInsert h p st.cache, dirty := true }

/-- saveThumbnailCache (thumbnails.go lines 565 to 587), with the outcomes of
json.Marshal and os.WriteFile supplied by the caller. Returns the new state
together with `true` exactly when a disk write was performed. The dirty flag
is cleared only after a successful write. -/
def saveThumbnailCache (marshalOk writeOk : Bool) (st : CacheState) :
    CacheState × Bool :=
  if !st.dirty then (st, false)
  else if !marshalOk then (st, false)
  else if !writeOk then (st, true)
  else ({ st with dirty := false }, true)

/-! ### Seek-time computation in GenerateVideoThumbnail -/

/-- Outcome of the ffprobe call and the subsequent json.Unmarshal and
strconv.ParseFloat in GenerateVideoThumbnail: the probe itself can fail,
the probe output can fail to parse to a duration, or a duration is parsed.
The float64 duration is modelled as an exact rational. -/
inductive ProbeOutcome where
  | probeFail
  | parseFail
  | parsed (duration : ℚ)

/-- The seek time GenerateVideoThumbnail passes to the frame extraction
(thumbnails.go lines 620 to 648): it starts at 3.0, becomes
`duration * 0.1` when a positive duration was probed, and is raised back
to 3.0 when that is below 3.0. -/
def computeSeekTime (p : ProbeOutcome) : ℚ :=
  match p with
  | .probeFail => 3
  | .parseFail => 3
  | .parsed duration =>
    if 0 < duration then
      let s := duration * (1 / 10)
      if s < 3 then 3 else s
    else 3

/-! ### The thumbnail orchestrator, GetOrCreateThumbnail -/

/-- The errors GetOrCreateThumbnail can return. -/
inductive ThumbErr where
  | disabled
  | signatureFailed
  | mkdirFailed
  | generationFailed
deriving DecidableEq

/-- Model of filepath.Join for a clean directory path and a relative name. -/
def joinPath (dir name : String) : String := dir ++ "/" ++ name

/-- Outcomes of the effects one GetOrCreateThumbnail call can perform:
the global enabled flag, the result of GetVideoSignature on the video
(`none` models a stat failure), which paths os.Stat reports as existing,
the cache directory, and whether os.MkdirAll and GenerateVideoThumbnail
succeed when reached. -/
structure OrchEnv where
  enabled : Bool
  sigResult : Option VideoSignature
  fileExists : String → Bool
  cacheDir : String
  mkdirOk : Bool
  generateOk : Bool

/-- Result of one GetOrCreateThumbnail call: the cache state after the call,
the returned path or error, and whether GenerateVideoThumbnail was invoked. -/
structure OrchResult where
  state : CacheState
  res : Except ThumbErr String
  genCalled : Bool

/-- GetOrCreateThumbnail (thumbnails.go lines 678 to 735): fail fast when
disabled; compute the signature and its hash; on a cache hit whose stored
path still exists return it; otherwise check for an orphaned thumbnail at
`cacheDir/<hash>.jpg`, recording and returning it when present; otherwise
create the directory and invoke the frame extractor, storing the mapping
only on success. -/
def GetOrCreateThumbnail (env : OrchEnv) (st : CacheState) : OrchResult :=
  if !env.enabled then ⟨st, .error .disabled, false⟩
  else
    match env.sigResult with
    | none => ⟨st, .error .signatureFailed, false⟩
    | some sig =>
      let sigHash := GetSignatureHash sig
      let thumbnailPath := joinPath env.cacheDir (sigHash ++ ".jpg")
      let afterMiss : OrchResult :=
        if env.fileExists thumbnailPath then
          ⟨cachePut sigHash thumbnailPath st, .ok thumbnailPath, false⟩
        else if !env.mkdirOk then ⟨st, .error .mkdirFailed, false⟩
        else if env.generateOk then
          ⟨cachePut sigHash thumbnailPath st, .ok thumbnailPath, true⟩
        else ⟨st, .error .generationFailed, true⟩
      match mapLookup sigHash st.cache with
      | some cachedPath =>
        if env.fileExists cachedPath then ⟨st, .ok cachedPath, false⟩ else afterMiss
      | none => afterMiss

/-! ### InitThumbnails -/

/-- ThumbConfig holds thumbnail generation settings (struct ThumbConfig). -/
structure ThumbConfig where
  Enabled : Bool
  CacheDir : String
  PreGenerate : Int
  Width : Int
  Height : Int
  MaxConcurrent : Int

/-- Outcome of the os.MkdirAll call InitThumbnails makes for the cache
directory. -/
structure InitEnv where
  mkdirOk : Bool

/-- The globals InitThumbnails leaves behind: the ThumbnailEnabled flag, the
configuration (when one was written), and the capacity of the semaphore
channel (0 when none was created). -/
structure InitResult where
  thumbnailEnabled : Bool
  config : Option ThumbConfig
  semCapacity : Nat

/-- InitThumbnails (thumbnails.go lines 870 to 914): when disabled it just
records the flag; otherwise it writes the configuration (width 320, height
180, maximum concurrency 2), creates the semaphore, and on a cache-directory
creation failure logs a warning, clears ThumbnailEnabled and returns. -/
def InitThumbnails (enableThumbnails : Bool) (cacheDir : String)
    (preGenerate : Int) (debug : Bool) (env : InitEnv) : InitResult :=
  if !enableThumbnails then ⟨false, none, 0⟩
  else
    let cfg : ThumbConfig := ⟨true, cacheDir, preGenerate, 320, 180, 2⟩
    if !env.mkdirOk then ⟨false, some cfg, cfg.MaxConcurrent.toNat⟩
    else ⟨true, some cfg, cfg.MaxConcurrent.toNat⟩

/-! ### PreGenerateThumbnails -/

/-- FileInfo holds information about each file (struct FileInfo in
localpics.go); the modification time is its Unix value. -/
structure FileInfo where
  Name : String
  Path : String
  Size : Int
  Modified : Int
  Extension : String
  Type' : String

/-- Outcome of reading and unmarshalling `outputDir/video_1.json`. -/
inductive PageRead where
  | readErr
  | parseErr
  | parsed (files : List FileInfo)

/-- The selection loop of PreGenerateThumbnails (thumbnails.go lines 825 to
854): skip entries whose type is not "video", stop once `processed` reaches
`numToProcess`, and otherwise select the entry and count it. -/
def selectVideos (numToProcess : Int) : List FileInfo → Int → List FileInfo
  | [], _ => []
  | f :: rest, processed =>
    if f.Type' ≠ "video" then selectVideos numToProcess rest processed
    else if numToProcess ≤ processed then []
    else f :: selectVideos numToProcess rest (processed + 1)

/-- Go string slicing `s[n:]` on the byte view of a string: defined (returning
the remaining bytes) exactly when `n` is at most the byte length, a slice
beyond the byte length being a run-time panic, modelled as `none`. -/
def goStringByteDrop (s : String) (n : Nat) : Option (List Nat) :=
  if n ≤ (utf8Encode s).length then some ((utf8Encode s).drop n) else none

/-- Derivation of the filesystem path of every selected video
(thumbnails.go line 837): `filepath.Join(inputDir, file.Path[len("/media/"):])`,
where the slice panics — `none` — on any path shorter than 7 bytes. -/
def launchPaths (inputDir : String) : List FileInfo → Option (List (List Nat))
  | [] => some []
  | f :: fs =>
    match goStringByteDrop f.Path 7, launchPaths inputDir fs with
    | some rest, some others => some ((utf8Encode inputDir ++ [47] ++ rest) :: others)
    | _, _ => none

/-- Effects visible to one PreGenerateThumbnails call: the result of reading
the first page, the environment each spawned GetOrCreateThumbnail call sees
for its video path, and the outcomes of the final cache flush. -/
structure PreGenEnv where
  page : PageRead
  orchEnvOf : List Nat → OrchEnv
  marshalOk : Bool
  writeOk : Bool

/-- Result of PreGenerateThumbnails: the derived paths of the launched tasks,
the outcome of every task (all tasks are awaited before the function
returns), the final cache state, and whether a final flush was invoked. -/
structure PreGenResult where
  launched : List (List Nat)
  results : List (Except ThumbErr String)
  finalState : CacheState
  flushed : Bool

/-- Runs the spawned generation tasks: every launched task calls
GetOrCreateThumbnail and its outcome is recorded; no outcome aborts the
remaining tasks. -/
def runTasks (envOf : List Nat → OrchEnv) :
    List (List Nat) → CacheState → CacheState × List (Except ThumbErr String)
  | [], st => (st, [])
  | p :: ps, st =>
    let r := GetOrCreateThumbnail (envOf p) st
    let rest := runTasks envOf ps r.state
    (rest.1, r.res :: rest.2)

/-- PreGenerateThumbnails (thumbnails.go lines 782 to 867): return at once
when disabled or the pre-generate limit is not positive, on any read or
parse failure of `video_1.json`, or when the first page is empty; otherwise
cap the attempt count at the page length, select the first videos, derive
each path by slicing off the 7-byte "/media/" part, run one task per
selected video, wait for all of them, and flush the cache when the dirty
flag is set. A `none` result models the slice panic on a short path. -/
def PreGenerateThumbnails (enabled : Bool) (cfg : ThumbConfig)
    (inputDir : String) (env : PreGenEnv) (st : CacheState) :
    Option PreGenResult :=
  if enabled = false ∨ cfg.PreGenerate ≤ 0 then some ⟨[], [], st, false⟩
  else
    match env.page with
    | .readErr => some ⟨[], [], st, false⟩
    | .parseErr => some ⟨[], [], st, false⟩
    | .parsed files =>
      if files.length = 0 then some ⟨[], [], st, false⟩
      else
        let numToProcess : Int :=
          if (files.length : Int) < cfg.PreGenerate then (files.length : Int)
          else cfg.PreGenerate
        let selected := selectVideos numToProcess files 0
        match launchPaths inputDir selected with
        | none => none
        | some paths =>
          let run := runTasks env.orchEnvOf paths st
          if run.1.dirty then
            some ⟨paths, run.2, (saveThumbnailCache env.marshalOk env.writeOk run.1).1, true⟩
          else some ⟨paths, run.2, run.1, false⟩

/-! ### The concurrency limiter of GenerateVideoThumbnail

Every GenerateVideoThumbnail call sends on the semaphore channel before any
work and receives from it on every exit path (a deferred receive), so a
worker is modelled by three phases: before the send, holding a slot while
the extraction runs, and after the deferred receive. The channel has
capacity `cap`, so a send blocks while `cap` slots are held. -/

/-- Phase of one GenerateVideoThumbnail worker. -/
inductive WPhase where
  | idle
  | running
  | done
deriving DecidableEq

/-- Whether a worker currently holds a semaphore slot. -/
def isRunning : WPhase → Bool
  | WPhase.running => true
  | _ => false

/-- Number of workers currently holding a semaphore slot (equivalently, the
number of buffered items in the semaphore channel). -/
def countRunning (ws : List WPhase) : Nat :=
  ws.countP isRunning

/-- One scheduler step of the semaphore protocol with capacity `cap`: an
idle worker may acquire a slot when one is free, and a running worker may
finish, its deferred receive releasing the slot on every exit path. -/
inductive SemStep (cap : Nat) : List WPhase → List WPhase → Prop where
  | acquire (l r : List WPhase) :
      countRunning (l ++ WPhase.idle :: r) < cap →
      SemStep cap (l ++ WPhase.idle :: r) (l ++ WPhase.running :: r)
  | finish (l r : List WPhase) :
      SemStep cap (l ++ WPhase.running :: r) (l ++ WPhase.done :: r)

/-- Reachability under the semaphore protocol. -/
def SemReach (cap : Nat) : List WPhase → List WPhase → Prop :=
  Relation.ReflTransGen (SemStep cap)

/-! ### Helper lemmas -/

theorem leBytes_length (k x : Nat) : (leBytes k x).length = k := by
  induction k generalizing x with
  | zero => rfl
  | succ k ih => simp [leBytes, ih]

theorem md5Bytes_length (msg : List Nat) : (md5Bytes msg).length = 16 := by
  simp [md5Bytes, leBytes_length]

theorem hexString_length (bs : List Nat) : (hexString bs).length = 2 * bs.length := by
  have : (String.mk (bs.map hexByte).flatten).length = (bs.map hexByte).flatten.length := rfl
  rw [hexString, this]
  induction bs with
  | nil => rfl
  | cons b rest ih => simp [hexByte, ih]; ring

theorem md5Hex_length (s : String) : (md5Hex s).length = 32 := by
  rw [md5Hex, hexString_length, md5Bytes_length]

theorem mapLookup_mapInsert (k v : String) (m : List (String × String)) :
    mapLookup k (mapInsert k v m) = some v := by
  induction m with
  | nil => simp [mapInsert, mapLookup]
  | cons kv rest ih =>
    by_cases h : kv.1 = k
    · simp [mapInsert, mapLookup, h]
    · simp [mapInsert, mapLookup, h, ih]

/-! ### Claim theorems -/

/-- C1: in GenerateVideoThumbnail the seek offset passed to the frame
extraction is `max(duration * 0.10, 3.0)` whenever the probe succeeds and
parses to a duration strictly greater than 0, and exactly 3.0 on a probe
failure, unparsable probe output, or non-positive duration; in particular a
probed duration of 40 gives offset 4.0 and a probed duration of 5 gives
offset 3.0. -/
theorem seekTime_policy :
    (∀ d : ℚ, 0 < d → computeSeekTime (.parsed d) = max (d * (1 / 10)) 3) ∧
    computeSeekTime .probeFail = 3 ∧
    computeSeekTime .parseFail = 3 ∧
    (∀ d : ℚ, d ≤ 0 → computeSeekTime (.parsed d) = 3) ∧
    computeSeekTime (.parsed 40) = 4 ∧
    computeSeekTime (.parsed 5) = 3 := by
  refine ⟨fun d hd => ?_, rfl, rfl, fun d hd => ?_, ?_, ?_⟩
  · simp only [computeSeekTime, if_pos hd]
    rcases lt_or_le (d * (1 / 10)) 3 with h | h
    · rw [if_pos h, max_eq_right h.le]
    · rw [if_neg (not_lt.mpr h), max_eq_left h]
  · rw [computeSeekTime, if_neg (not_lt.mpr hd)]
  · norm_num [computeSeekTime]
  · norm_num [computeSeekTime]

/-- Witness for C1: the probed duration 40 yields the offset
`max(40 * 0.10, 3.0)`. -/
theorem seekTime_policy_witness :
    computeSeekTime (.parsed 40) = max ((40 : ℚ) * (1 / 10)) 3 :=
  seekTime_policy.1 40 (by norm_num)

/-- C2: GetSignatureHash is a deterministic pure function of only the Size
and HeaderHash fields: two signatures agreeing on those fields receive the
same 32-character hex cache key even when their ModTime fields differ, and
consequently two files presenting the same stat size and the same readable
header bytes receive the same cache key regardless of mtime. -/
theorem signatureHash_deterministic (s1 s2 : VideoSignature)
    (hsize : s1.Size = s2.Size) (hhash : s1.HeaderHash = s2.HeaderHash) :
    (GetSignatureHash s1 = GetSignatureHash s2 ∧ (GetSignatureHash s1).length = 32) ∧
    ∀ (size mt1 mt2 : Int) (openOk : Bool) (bytes : List Nat),
      (GetVideoSignature ⟨some (size, mt1), openOk, bytes⟩).map GetSignatureHash =
      (GetVideoSignature ⟨some (size, mt2), openOk, bytes⟩).map GetSignatureHash := by
  refine ⟨⟨by rw [GetSignatureHash, GetSignatureHash, hsize, hhash], md5Hex_length _⟩,
    fun size mt1 mt2 openOk bytes => ?_⟩
  simp only [GetVideoSignature]
  split_ifs <;> rfl

/-- Witness for C2: two signatures of size 5 with empty header digests and
different mtimes share their cache key. -/
theorem signatureHash_deterministic_witness :
    (GetSignatureHash ⟨5, 111, ""⟩ = GetSignatureHash ⟨5, 222, ""⟩ ∧
      (GetSignatureHash ⟨5, 111, ""⟩).length = 32) ∧
    ∀ (size mt1 mt2 : Int) (openOk : Bool) (bytes : List Nat),
      (GetVideoSignature ⟨some (size, mt1), openOk, bytes⟩).map GetSignatureHash =
      (GetVideoSignature ⟨some (size, mt2), openOk, bytes⟩).map GetSignatureHash :=
  signatureHash_deterministic ⟨5, 111, ""⟩ ⟨5, 222, ""⟩ rfl rfl

/-- C6: saveThumbnailCache performs no disk write when the dirty flag is
false; after exactly one put followed by one flush it performs exactly one
write (and a second flush writes nothing); and the dirty flag is cleared
only after a successful write, remaining true on a serialization or write
error so the flush is retried later. -/
theorem dirty_flush_discipline (st : CacheState) (mOk wOk : Bool)
    (hclean : st.dirty = false) :
    saveThumbnailCache mOk wOk st = (st, false) ∧
    (∀ (h p : String),
      saveThumbnailCache true true (cachePut h p st) =
        ({ cache := mapInsert h p st.cache, dirty := false }, true) ∧
      saveThumbnailCache true true
          (saveThumbnailCache true true (cachePut h p st)).1 =
        ((saveThumbnailCache true true (cachePut h p st)).1, false)) ∧
    (∀ st' : CacheState, st'.dirty = true →
      saveThumbnailCache false wOk st' = (st', false) ∧
      saveThumbnailCache true false st' = (st', true)) := by
  refine ⟨by simp [saveThumbnailCache, hclean], fun h p => ⟨?_, ?_⟩,
    fun st' hd => ⟨by simp [saveThumbnailCache, hd], by simp [saveThumbnailCache, hd]⟩⟩
  · simp [saveThumbnailCache, cachePut]
  · simp [saveThumbnailCache, cachePut]

/-- Witness for C6: the flush discipline at the empty clean cache with a
single put of a concrete mapping. -/
theorem dirty_flush_discipline_witness :
    saveThumbnailCache true true ⟨[], false⟩ = (⟨[], false⟩, false) ∧
    (∀ (h p : String),
      saveThumbnailCache true true (cachePut h p ⟨[], false⟩) =
        ({ cache := mapInsert h p ([] : List (String × String)), dirty := false }, true) ∧
      saveThumbnailCache true true
          (saveThumbnailCache true true (cachePut h p ⟨[], false⟩)).1 =
        ((saveThumbnailCache true true (cachePut h p ⟨[], false⟩)).1, false)) ∧
    (∀ st' : CacheState, st'.dirty = true →
      saveThumbnailCache false true st' = (st', false) ∧
      saveThumbnailCache true false st' = (st', true)) :=
  dirty_flush_discipline ⟨[], false⟩ true true rfl

/-- C10: when InitThumbnails is called with the feature enabled but creating
the cache directory fails, it clears ThumbnailEnabled and returns, so every
subsequent GetOrCreateThumbnail call made under that flag fails with the
disabled error without touching the cache or invoking generation. -/
theorem init_mkdir_failure_disables (cacheDir : String) (pg : Int) (dbg : Bool)
    (env : InitEnv) (hmk : env.mkdirOk = false) :
    (InitThumbnails true cacheDir pg dbg env).thumbnailEnabled = false ∧
    ∀ (oenv : OrchEnv) (st : CacheState),
      oenv.enabled = (InitThumbnails true cacheDir pg dbg env).thumbnailEnabled →
      GetOrCreateThumbnail oenv st = ⟨st, .error .disabled, false⟩ := by
  have henb : (InitThumbnails true cacheDir pg dbg env).thumbnailEnabled = false := by
    simp [InitThumbnails, hmk]
  refine ⟨henb, fun oenv st h => ?_⟩
  rw [henb] at h
  simp [GetOrCreateThumbnail, h]

/-- Witness for C10: a failing cache-directory creation with concrete
arguments disables the subsystem, and a concrete orchestrator call under the
cleared flag returns the disabled error unchanged. -/
theorem init_mkdir_failure_disables_witness :
    (InitThumbnails true "cache" 3 false ⟨false⟩).thumbnailEnabled = false ∧
    GetOrCreateThumbnail ⟨false, none, fun _ => false, "cache", true, true⟩ ⟨[], false⟩ =
      ⟨⟨[], false⟩, .error .disabled, false⟩ :=
  ⟨(init_mkdir_failure_disables "cache" 3 false ⟨false⟩ rfl).1,
    (init_mkdir_failure_disables "cache" 3 false ⟨false⟩ rfl).2
      ⟨false, none, fun _ => false, "cache", true, true⟩ ⟨[], false⟩ rfl⟩

/-- C5: GetVideoSignature fails exactly when the stat fails; whenever the
stat succeeds it returns a signature carrying the stat size and mtime, whose
header digest is empty when the size is not positive or the open or full
header read fails, and is the digest of the first `min(1 MiB, size)` bytes
when the read succeeds. -/
theorem videoSignature_error_only_on_stat (env : FileEnv) :
    (GetVideoSignature env = none ↔ env.statRes = none) ∧
    (∀ size mtime : Int, env.statRes = some (size, mtime) →
      ∃ sig, GetVideoSignature env = some sig ∧ sig.Size = size ∧ sig.ModTime = mtime ∧
        (size ≤ 0 → sig.HeaderHash = "") ∧
        (env.openOk = false → sig.HeaderHash = "") ∧
        (0 < size → env.openOk = true →
          ((env.bytes.length : Int) < min size headerSizeCap → sig.HeaderHash = "") ∧
          (min size headerSizeCap ≤ (env.bytes.length : Int) →
            sig.HeaderHash = md5HexBytes (env.bytes.take (min size headerSizeCap).toNat)))) := by
  have hmin : ∀ size : Int,
      (if size < headerSizeCap then size else headerSizeCap) = min size headerSizeCap := by
    intro size
    rcases lt_or_le size headerSizeCap with h | h
    · rw [if_pos h, min_eq_left h.le]
    · rw [if_neg (not_lt.mpr h), min_eq_right h]
  constructor
  · cases hst : env.statRes with
    | none => simp [GetVideoSignature, hst]
    | some p => simp only [GetVideoSignature, hst]; split_ifs <;> simp
  · intro size mtime hst
    simp only [GetVideoSignature, hst, hmin]
    by_cases hsz : 0 < size
    · by_cases hop : env.openOk
      · by_cases hrd : min size headerSizeCap ≤ (env.bytes.length : Int)
        · rw [if_pos hsz, if_pos hop, if_pos hrd]
          exact ⟨_, rfl, rfl, rfl, fun h => absurd hsz (not_lt.mpr h),
            fun h => by rw [hop] at h; exact absurd h (by simp),
            fun _ _ => ⟨fun h => absurd hrd (not_le.mpr h), fun _ => rfl⟩⟩
        · rw [if_pos hsz, if_pos hop, if_neg hrd]
          exact ⟨_, rfl, rfl, rfl, fun _ => rfl, fun _ => rfl,
            fun _ _ => ⟨fun _ => rfl, fun h => absurd h hrd⟩⟩
      · rw [if_pos hsz, if_neg hop]
        exact ⟨_, rfl, rfl, rfl, fun _ => rfl, fun _ => rfl,
          fun _ h => absurd h hop⟩
    · rw [if_neg hsz]
      exact ⟨_, rfl, rfl, rfl, fun _ => rfl, fun _ => rfl, fun h _ => absurd h hsz⟩

/-- Witness for C5: a readable 3-byte file of stat size 3 yields a signature
carrying the stat data whose digest hashes all 3 bytes. -/
theorem videoSignature_error_only_on_stat_witness :
    ∃ sig, GetVideoSignature ⟨some (3, 7), true, [1, 2, 3]⟩ = some sig ∧
      sig.Size = 3 ∧ sig.ModTime = 7 ∧
      ((3 : Int) ≤ 0 → sig.HeaderHash = "") ∧
      ((true : Bool) = false → sig.HeaderHash = "") ∧
      ((0 : Int) < 3 → (true : Bool) = true →
        ((([1, 2, 3] : List Nat).length : Int) < min 3 headerSizeCap → sig.HeaderHash = "") ∧
        (min 3 headerSizeCap ≤ (([1, 2, 3] : List Nat).length : Int) →
          sig.HeaderHash = md5HexBytes (([1, 2, 3] : List Nat).take (min (3 : Int) headerSizeCap).toNat))) :=
  (videoSignature_error_only_on_stat ⟨some (3, 7), true, [1, 2, 3]⟩).2 3 7 rfl

/-- C3: whenever a GetOrCreateThumbnail call reaches frame extraction and
the extraction fails, the call returns the generation error and leaves the
cache map and dirty flag exactly as they were; the mapping is stored only
when the extraction succeeds. -/
theorem extraction_failure_not_cached (env : OrchEnv) (st : CacheState)
    (sig : VideoSignature) (hsig : env.sigResult = some sig)
    (hgen : (GetOrCreateThumbnail env st).genCalled = true) :
    (env.generateOk = false →
      GetOrCreateThumbnail env st = ⟨st, .error .generationFailed, true⟩) ∧
    (env.generateOk = true →
      GetOrCreateThumbnail env st =
        ⟨cachePut (GetSignatureHash sig)
            (joinPath env.cacheDir (GetSignatureHash sig ++ ".jpg")) st,
          .ok (joinPath env.cacheDir (GetSignatureHash sig ++ ".jpg")), true⟩) := by
  cases hen : env.enabled with
  | false => rw [GetOrCreateThumbnail] at hgen; simp [hen] at hgen
  | true =>
    rw [GetOrCreateThumbnail] at hgen ⊢
    simp only [hen, hsig, Bool.not_true, Bool.false_eq_true, if_false] at hgen ⊢
    cases hlk : mapLookup (GetSignatureHash sig) st.cache with
    | some cachedPath =>
      rw [hlk] at hgen
      cases hfe : env.fileExists cachedPath with
      | true => simp [hfe] at hgen
      | false =>
        simp only [hfe, Bool.false_eq_true, if_false] at hgen ⊢
        cases hft : env.fileExists (joinPath env.cacheDir (GetSignatureHash sig ++ ".jpg")) with
        | true => simp [hft] at hgen
        | false =>
          simp only [hft, Bool.false_eq_true, if_false] at hgen ⊢
          cases hmk : env.mkdirOk with
          | false => simp [hmk] at hgen
          | true =>
            simp only [hmk, Bool.not_true, Bool.false_eq_true, if_false] at hgen ⊢
            refine ⟨fun h => ?_, fun h => ?_⟩ <;> simp [h]
    | none =>
      rw [hlk] at hgen
      cases hft : env.fileExists (joinPath env.cacheDir (GetSignatureHash sig ++ ".jpg")) with
      | true => simp [hft] at hgen
      | false =>
        simp only [hft, Bool.false_eq_true, if_false] at hgen ⊢
        cases hmk : env.mkdirOk with
        | false => simp [hmk] at hgen
        | true =>
          simp only [hmk, Bool.not_true, Bool.false_eq_true, if_false] at hgen ⊢
          refine ⟨fun h => ?_, fun h => ?_⟩ <;> simp [h]

set_option maxRecDepth 400000 in
/-- Witness for C3: a concrete call that reaches a failing extraction
returns the generation error with the empty cache state untouched. -/
theorem extraction_failure_not_cached_witness :
    ((false : Bool) = false →
      GetOrCreateThumbnail ⟨true, some ⟨5, 111, ""⟩, fun _ => false, "cache", true, false⟩
          ⟨[], false⟩ =
        ⟨⟨[], false⟩, .error .generationFailed, true⟩) ∧
    ((false : Bool) = true →
      GetOrCreateThumbnail ⟨true, some ⟨5, 111, ""⟩, fun _ => false, "cache", true, false⟩
          ⟨[], false⟩ =
        ⟨cachePut (GetSignatureHash ⟨5, 111, ""⟩)
            (joinPath "cache" (GetSignatureHash ⟨5, 111, ""⟩ ++ ".jpg")) ⟨[], false⟩,
          .ok (joinPath "cache" (GetSignatureHash ⟨5, 111, ""⟩ ++ ".jpg")), true⟩) :=
  extraction_failure_not_cached
    ⟨true, some ⟨5, 111, ""⟩, fun _ => false, "cache", true, false⟩ ⟨[], false⟩
    ⟨5, 111, ""⟩ rfl rfl

/-- C4: when the signature hash is absent from the in-memory cache but the
file `cacheDir/<hash>.jpg` exists on disk, GetOrCreateThumbnail returns that
path without invoking the frame extractor, and afterwards the cache maps the
hash to that path and the dirty flag is set. -/
theorem disk_recovery_without_extractor (env : OrchEnv) (st : CacheState)
    (sig : VideoSignature) (hen : env.enabled = true) (hsig : env.sigResult = some sig)
    (habsent : mapLookup (GetSignatureHash sig) st.cache = none)
    (hdisk : env.fileExists (joinPath env.cacheDir (GetSignatureHash sig ++ ".jpg")) = true) :
    GetOrCreateThumbnail env st =
      ⟨cachePut (GetSignatureHash sig)
          (joinPath env.cacheDir (GetSignatureHash sig ++ ".jpg")) st,
        .ok (joinPath env.cacheDir (GetSignatureHash sig ++ ".jpg")), false⟩ ∧
    mapLookup (GetSignatureHash sig) (GetOrCreateThumbnail env st).state.cache =
      some (joinPath env.cacheDir (GetSignatureHash sig ++ ".jpg")) ∧
    (GetOrCreateThumbnail env st).state.dirty = true := by
  have hmain : GetOrCreateThumbnail env st =
      ⟨cachePut (GetSignatureHash sig)
          (joinPath env.cacheDir (GetSignatureHash sig ++ ".jpg")) st,
        .ok (joinPath env.cacheDir (GetSignatureHash sig ++ ".jpg")), false⟩ := by
    rw [GetOrCreateThumbnail]
    simp only [hen, hsig, Bool.not_true, Bool.false_eq_true, if_false, habsent, hdisk, if_true]
  exact ⟨hmain, by rw [hmain]; exact mapLookup_mapInsert _ _ _, by rw [hmain]; rfl⟩

set_option maxRecDepth 400000 in
/-- Witness for C4: with an empty in-memory cache and the thumbnail file
reported present on disk, a concrete call returns the deterministic path,
records it, and sets the dirty flag, without extraction. -/
theorem disk_recovery_without_extractor_witness :
    GetOrCreateThumbnail ⟨true, some ⟨5, 111, ""⟩, fun _ => true, "cache", true, true⟩
        ⟨[], false⟩ =
      ⟨cachePut (GetSignatureHash ⟨5, 111, ""⟩)
          (joinPath "cache" (GetSignatureHash ⟨5, 111, ""⟩ ++ ".jpg")) ⟨[], false⟩,
        .ok (joinPath "cache" (GetSignatureHash ⟨5, 111, ""⟩ ++ ".jpg")), false⟩ ∧
    mapLookup (GetSignatureHash ⟨5, 111, ""⟩)
        (GetOrCreateThumbnail ⟨true, some ⟨5, 111, ""⟩, fun _ => true, "cache", true, true⟩
          ⟨[], false⟩).state.cache =
      some (joinPath "cache" (GetSignatureHash ⟨5, 111, ""⟩ ++ ".jpg")) ∧
    (GetOrCreateThumbnail ⟨true, some ⟨5, 111, ""⟩, fun _ => true, "cache", true, true⟩
        ⟨[], false⟩).state.dirty = true :=
  disk_recovery_without_extractor
    ⟨true, some ⟨5, 111, ""⟩, fun _ => true, "cache", true, true⟩ ⟨[], false⟩
    ⟨5, 111, ""⟩ rfl rfl rfl rfl

theorem selectVideos_length (num : Int) (files : List FileInfo) (processed : Int) :
    (selectVideos num files processed).length =
      min (num - processed).toNat
        (files.countP (fun f => decide (f.Type' = "video"))) := by
  induction files generalizing processed with
  | nil => simp [selectVideos]
  | cons f rest ih =>
    by_cases hv : f.Type' = "video"
    · by_cases hb : num ≤ processed
      · simp [selectVideos, hv, hb, List.countP_cons]
        omega
      · simp [selectVideos, hv, hb, List.countP_cons, ih (processed + 1)]
        omega
    · simp [selectVideos, hv, List.countP_cons, ih processed]

theorem launchPaths_isSome (dir : String) (fs : List FileInfo) :
    (launchPaths dir fs).isSome ↔ ∀ f ∈ fs, 7 ≤ (utf8Encode f.Path).length := by
  induction fs with
  | nil => simp [launchPaths]
  | cons f rest ih =>
    simp only [launchPaths, goStringByteDrop]
    by_cases h7 : 7 ≤ (utf8Encode f.Path).length
    · rw [if_pos h7]
      cases hr : launchPaths dir rest with
      | none => rw [hr] at ih; simp_all
      | some others => rw [hr] at ih; simp_all
    · rw [if_neg h7]
      simp [h7]

theorem launchPaths_length (dir : String) (fs : List FileInfo) (ps : List (List Nat))
    (h : launchPaths dir fs = some ps) : ps.length = fs.length := by
  induction fs generalizing ps with
  | nil => simp only [launchPaths, Option.some.injEq] at h; subst h; rfl
  | cons f rest ih =>
    simp only [launchPaths] at h
    cases hd : goStringByteDrop f.Path 7 with
    | none => rw [hd] at h; cases h
    | some r0 =>
      rw [hd] at h
      cases hr : launchPaths dir rest with
      | none => rw [hr] at h; cases h
      | some others =>
        rw [hr] at h
        simp only [Option.some.injEq] at h
        subst h
        simp [ih others hr]

theorem runTasks_length (envOf : List Nat → OrchEnv) (ps : List (List Nat))
    (st : CacheState) : (runTasks envOf ps st).2.length = ps.length := by
  induction ps generalizing st with
  | nil => rfl
  | cons p rest ih => simp [runTasks, ih]

/-- C7: PreGenerateThumbnails starts generation attempts for exactly
`min(limit, number of video-typed candidates)` videos, records an outcome
for every launched task before returning (individual failures never abort
the siblings), and after all tasks have completed it invokes the cache
flush exactly when the dirty flag is set. -/
theorem pre_generation_bound (enabled : Bool) (cfg : ThumbConfig) (inputDir : String)
    (env : PreGenEnv) (st : CacheState) (files : List FileInfo) (r : PreGenResult)
    (hen : enabled = true) (hpos : 0 < cfg.PreGenerate)
    (hpage : env.page = .parsed files)
    (hres : PreGenerateThumbnails enabled cfg inputDir env st = some r) :
    r.launched.length =
      min cfg.PreGenerate.toNat (files.countP (fun f => decide (f.Type' = "video"))) ∧
    r.results.length = r.launched.length ∧
    (files.length ≠ 0 →
      r.flushed = (runTasks env.orchEnvOf r.launched st).1.dirty) := by
  have hguard : ¬(enabled = false ∨ cfg.PreGenerate ≤ 0) := by simp [hen]; omega
  rw [PreGenerateThumbnails, if_neg hguard] at hres
  split at hres <;> rename_i hpg
  · rw [hpage] at hpg; cases hpg
  · rw [hpage] at hpg; cases hpg
  rename_i f2
  rw [hpage] at hpg
  injection hpg with hf
  subst hf
  by_cases hlen : files.length = 0
  · rw [if_pos hlen] at hres
    simp only [Option.some.injEq] at hres
    subst hres
    refine ⟨?_, rfl, fun h => absurd hlen h⟩
    rw [List.length_eq_zero.mp hlen]
    simp
  · rw [if_neg hlen] at hres
    split at hres <;> rename_i hcmp
    all_goals
      dsimp only at hres
      split at hres
      · simp at hres
      rename_i paths hlp
      have hcnt := List.countP_le_length
        (p := fun f => decide (f.Type' = "video")) (l := files)
      have hplen : paths.length =
          min cfg.PreGenerate.toNat
            (files.countP (fun f => decide (f.Type' = "video"))) := by
        rw [launchPaths_length _ _ _ hlp, selectVideos_length]
        omega
      split at hres <;> rename_i hd <;> simp only [Option.some.injEq] at hres <;>
        subst hres
      · exact ⟨hplen, runTasks_length _ _ _, fun _ => by rw [hd]⟩
      · exact ⟨hplen, runTasks_length _ _ _,
          fun _ => by simp only [Bool.not_eq_true] at hd; rw [hd]⟩

/-- Witness for C7: ten identical video candidates under a limit of 3 yield
exactly 3 launched attempts, one recorded outcome per attempt, and no flush
because nothing became dirty. -/
theorem pre_generation_bound_witness :
    ([[105, 110, 47, 97, 46, 109, 112, 52], [105, 110, 47, 97, 46, 109, 112, 52],
        [105, 110, 47, 97, 46, 109, 112, 52]] : List (List Nat)).length =
      min (3 : Int).toNat
        ((List.replicate 10
            (⟨"a", "/media/a.mp4", 1, 0, ".mp4", "video"⟩ : FileInfo)).countP
          (fun f => decide (f.Type' = "video"))) ∧
    ([Except.error ThumbErr.disabled, Except.error ThumbErr.disabled,
        Except.error ThumbErr.disabled] : List (Except ThumbErr String)).length =
      ([[105, 110, 47, 97, 46, 109, 112, 52], [105, 110, 47, 97, 46, 109, 112, 52],
          [105, 110, 47, 97, 46, 109, 112, 52]] : List (List Nat)).length ∧
    ((List.replicate 10
        (⟨"a", "/media/a.mp4", 1, 0, ".mp4", "video"⟩ : FileInfo)).length ≠ 0 →
      false = (runTasks (fun _ => ⟨false, none, fun _ => false, "cache", true, true⟩)
          [[105, 110, 47, 97, 46, 109, 112, 52], [105, 110, 47, 97, 46, 109, 112, 52],
            [105, 110, 47, 97, 46, 109, 112, 52]] ⟨[], false⟩).1.dirty) :=
  pre_generation_bound true ⟨true, "cache", 3, 320, 180, 2⟩ "in"
    ⟨.parsed (List.replicate 10 ⟨"a", "/media/a.mp4", 1, 0, ".mp4", "video"⟩),
      fun _ => ⟨false, none, fun _ => false, "cache", true, true⟩, true, true⟩
    ⟨[], false⟩
    (List.replicate 10 ⟨"a", "/media/a.mp4", 1, 0, ".mp4", "video"⟩)
    ⟨[[105, 110, 47, 97, 46, 109, 112, 52], [105, 110, 47, 97, 46, 109, 112, 52],
        [105, 110, 47, 97, 46, 109, 112, 52]],
      [Except.error ThumbErr.disabled, Except.error ThumbErr.disabled,
        Except.error ThumbErr.disabled], ⟨[], false⟩, false⟩
    rfl (by norm_num) rfl rfl

/-- C9: PreGenerateThumbnails derives each selected video's filesystem path
by slicing off the first 7 bytes of its Path field; the slice is defined
exactly when the path has at least 7 bytes, and the call panics — modelled
as a `none` result — exactly when some selected video-typed candidate has a
shorter Path. -/
theorem preGenTail_ne_none (envOf : List Nat → OrchEnv) (marshalOk writeOk : Bool)
    (paths : List (List Nat)) (st : CacheState) :
    (let run := runTasks envOf paths st
     if run.1.dirty = true then
       some (⟨paths, run.2, (saveThumbnailCache marshalOk writeOk run.1).1, true⟩ : PreGenResult)
     else some ⟨paths, run.2, run.1, false⟩) ≠ none := by
  dsimp only
  split <;> simp

theorem media_slice_precondition (enabled : Bool) (cfg : ThumbConfig)
    (inputDir : String) (env : PreGenEnv) (st : CacheState) (files : List FileInfo)
    (hen : enabled = true) (hpos : 0 < cfg.PreGenerate)
    (hpage : env.page = .parsed files) (hne : files.length ≠ 0) :
    (∀ (s : String) (n : Nat),
      (goStringByteDrop s n).isSome ↔ n ≤ (utf8Encode s).length) ∧
    (PreGenerateThumbnails enabled cfg inputDir env st = none ↔
      ∃ f ∈ selectVideos
          (if (files.length : Int) < cfg.PreGenerate then (files.length : Int)
            else cfg.PreGenerate) files 0,
        (utf8Encode f.Path).length < 7) := by
  have hguard : ¬(enabled = false ∨ cfg.PreGenerate ≤ 0) := by simp [hen]; omega
  refine ⟨fun s n => ?_, ?_⟩
  · rw [goStringByteDrop]
    split_ifs with h <;> simp [h]
  · rw [PreGenerateThumbnails, if_neg hguard]
    split <;> rename_i hpg
    · rw [hpage] at hpg; cases hpg
    · rw [hpage] at hpg; cases hpg
    rename_i f2
    rw [hpage] at hpg
    injection hpg with hf
    subst hf
    rw [if_neg hne]
    dsimp only
    cases hlp : launchPaths inputDir
        (selectVideos (if (files.length : Int) < cfg.PreGenerate then (files.length : Int)
          else cfg.PreGenerate) files 0) with
    | none =>
      have h := launchPaths_isSome inputDir
        (selectVideos (if (files.length : Int) < cfg.PreGenerate then (files.length : Int)
          else cfg.PreGenerate) files 0)
      rw [hlp] at h
      simp only [Option.isSome_none, Bool.false_eq_true, false_iff] at h
      push_neg at h
      exact iff_of_true rfl h
    | some paths =>
      have h := launchPaths_isSome inputDir
        (selectVideos (if (files.length : Int) < cfg.PreGenerate then (files.length : Int)
          else cfg.PreGenerate) files 0)
      rw [hlp] at h
      simp only [Option.isSome_some, true_iff] at h
      refine iff_of_false
        (preGenTail_ne_none env.orchEnvOf env.marshalOk env.writeOk paths st) ?_
      push_neg
      exact h

set_option maxRecDepth 4000 in
/-- Witness for C9: a single video candidate whose Path is the 2-byte string
slash-m makes the slice out of range, and the whole pre-generation call
panics; the characterization confirms it on this input. -/
theorem media_slice_precondition_witness :
    (∀ (s : String) (n : Nat),
      (goStringByteDrop s n).isSome ↔ n ≤ (utf8Encode s).length) ∧
    (PreGenerateThumbnails true ⟨true, "cache", 3, 320, 180, 2⟩ "in"
        ⟨.parsed [⟨"m", "/m", 1, 0, "", "video"⟩],
          fun _ => ⟨false, none, fun _ => false, "cache", true, true⟩, true, true⟩
        ⟨[], false⟩ = none ↔
      ∃ f ∈ selectVideos
          (if (([⟨"m", "/m", 1, 0, "", "video"⟩] : List FileInfo).length : Int) < 3
            then (([⟨"m", "/m", 1, 0, "", "video"⟩] : List FileInfo).length : Int)
            else 3) [⟨"m", "/m", 1, 0, "", "video"⟩] 0,
        (utf8Encode f.Path).length < 7) :=
  media_slice_precondition true ⟨true, "cache", 3, 320, 180, 2⟩ "in"
    ⟨.parsed [⟨"m", "/m", 1, 0, "", "video"⟩],
      fun _ => ⟨false, none, fun _ => false, "cache", true, true⟩, true, true⟩
    ⟨[], false⟩ [⟨"m", "/m", 1, 0, "", "video"⟩]
    rfl (by norm_num) rfl (by simp)

theorem countRunning_replicate_idle (n : Nat) :
    countRunning (List.replicate n WPhase.idle) = 0 := by
  rw [countRunning, List.countP_eq_zero]
  intro a ha
  rw [List.eq_of_mem_replicate ha]
  simp [isRunning]

theorem countRunning_context (l r : List WPhase) (w : WPhase) :
    countRunning (l ++ w :: r) =
      countRunning l + countRunning r + (if isRunning w then 1 else 0) := by
  simp [countRunning, List.countP_append, List.countP_cons]
  omega

theorem semReach_bound (cap n : Nat) (ws : List WPhase)
    (h : SemReach cap (List.replicate n WPhase.idle) ws) : countRunning ws ≤ cap := by
  induction h with
  | refl => rw [countRunning_replicate_idle]; exact Nat.zero_le cap
  | tail hsteps hstep ih =>
    cases hstep with
    | acquire l r hlt =>
      rw [countRunning_context] at hlt ⊢
      simp [isRunning] at hlt ⊢
      omega
    | finish l r =>
      rw [countRunning_context] at ih ⊢
      simp [isRunning] at ih ⊢
      omega

/-- C8: under the semaphore discipline of GenerateVideoThumbnail — a send
before extraction and a deferred receive on every exit path — with the
capacity InitThumbnails configures (MaxConcurrent = 2), every reachable
schedule of any number of workers has at most 2 extractions running at one
instant, holds no slot once all workers are done (no slot is leaked), and is
never deadlocked: while any worker is not done, some step remains possible. -/
theorem concurrency_bound (cacheDir : String) (pg : Int) (dbg : Bool)
    (ienv : InitEnv) (n : Nat) (ws : List WPhase)
    (h : SemReach (InitThumbnails true cacheDir pg dbg ienv).semCapacity
      (List.replicate n WPhase.idle) ws) :
    countRunning ws ≤ 2 ∧
    ((∀ w ∈ ws, w = WPhase.done) → countRunning ws = 0) ∧
    ((∃ w ∈ ws, w ≠ WPhase.done) →
      ∃ ws', SemStep (InitThumbnails true cacheDir pg dbg ienv).semCapacity ws ws') := by
  have hcap : (InitThumbnails true cacheDir pg dbg ienv).semCapacity = 2 := by
    cases hmk : ienv.mkdirOk <;> simp [InitThumbnails, hmk]
  rw [hcap] at h ⊢
  refine ⟨semReach_bound 2 n ws h, fun hall => ?_, fun ⟨w, hw, hwne⟩ => ?_⟩
  · rw [countRunning, List.countP_eq_zero]
    intro a ha
    rw [hall a ha]
    simp [isRunning]
  · by_cases hpos : 0 < countRunning ws
    · obtain ⟨a, ha, hpa⟩ := List.countP_pos_iff.mp hpos
      have ha' : a = WPhase.running := by
        cases a
        · simp [isRunning] at hpa
        · rfl
        · simp [isRunning] at hpa
      subst ha'
      obtain ⟨l, r, rfl⟩ := List.append_of_mem ha
      exact ⟨_, SemStep.finish l r⟩
    · have hzero : countRunning ws = 0 := by omega
      cases w with
      | done => exact absurd rfl hwne
      | running =>
        have : 0 < countRunning ws :=
          List.countP_pos_iff.mpr ⟨_, hw, by simp [isRunning]⟩
        omega
      | idle =>
        obtain ⟨l, r, rfl⟩ := List.append_of_mem hw
        refine ⟨_, SemStep.acquire l r ?_⟩
        omega

/-- Witness for C8: three workers after one acquisition step satisfy the
bound, the no-leak property, and can still make progress. -/
theorem concurrency_bound_witness :
    countRunning [WPhase.running, WPhase.idle, WPhase.idle] ≤ 2 ∧
    ((∀ w ∈ [WPhase.running, WPhase.idle, WPhase.idle], w = WPhase.done) →
      countRunning [WPhase.running, WPhase.idle, WPhase.idle] = 0) ∧
    ((∃ w ∈ [WPhase.running, WPhase.idle, WPhase.idle], w ≠ WPhase.done) →
      ∃ ws', SemStep (InitThumbnails true "cache" 3 false ⟨true⟩).semCapacity
        [WPhase.running, WPhase.idle, WPhase.idle] ws') :=
  concurrency_bound "cache" 3 false ⟨true⟩ 3
    [WPhase.running, WPhase.idle, WPhase.idle]
    (Relation.ReflTransGen.single
      (SemStep.acquire [] [WPhase.idle, WPhase.idle] (by decide)))

end LocalPics
